import Mathlib

/-!
Verification development for the Healthify repository.

This file gives a shallow embedding of the two core subsystems of the
repository and proves properties about them:

* the response normalizer and the three public analysis operations of
  src/unnamed/part_000 (the Google GenAI flavored service, namespace
  GoogleGenAIService) and of
  src/backend/src/services/vertexAIGenAIService.js (the file based auth
  variant, namespace VertexAIGenAIService);
* the credential resolver of
  src/backend/src/utils/vercelServiceAccountHelper.js (its second,
  Vercel oriented document, the one the claims cite), together with the
  parse logic of src/tests/backend-tests/run-test.cjs.

JavaScript values produced by JSON.parse are embedded as the inductive
type Json below; number literals keep their source lexeme.  JSON.parse
itself is embedded as a strict, fueled recursive descent parser that
accepts exactly one top level value surrounded by optional whitespace
and rejects unescaped control characters inside strings, mirroring the
JavaScript builtin.  The remote model call is opaque in the source, so
the services are parameterized by its outcome (an Except value), and the
ambient clock is passed explicitly as a string.  Node buffer base64
decoding never throws, so it is embedded as an arbitrary total function
parameter of the credential resolver.
-/

/-- Embedded JavaScript JSON value.  Numbers keep the source lexeme of
the literal, which is enough for every comparison in this development. -/
inductive Json where
  | null : Json
  | bool : Bool → Json
  | num : String → Json
  | str : String → Json
  | arr : List Json → Json
  | obj : List (String × Json) → Json

/-- Is the value a JavaScript object (the shape of a structured record)? -/
def Json.isObj : Json → Bool
  | Json.obj _ => true
  | _ => false

/-- JavaScript property assignment on an association list: an existing
key keeps its position and receives the new value, a new key is appended. -/
def setFieldList : List (String × Json) → String → Json → List (String × Json)
  | [], k, v => [(k, v)]
  | (k', v') :: rest, k, v =>
    if k' = k then (k, v) :: rest else (k', v') :: setFieldList rest k v

/-- JavaScript property assignment obj[k] = v; a no-op on non-objects. -/
def setField (j : Json) (k : String) (v : Json) : Json :=
  match j with
  | Json.obj fields => Json.obj (setFieldList fields k v)
  | other => other

/-- First binding of a key in an association list. -/
def lookupField : List (String × Json) → String → Option Json
  | [], _ => none
  | (k', v) :: rest, k => if k' = k then some v else lookupField rest k

/-- JavaScript property read obj[k]; none on non-objects or absent keys. -/
def getField : Json → String → Option Json
  | Json.obj fields, k => lookupField fields k
  | _, _ => none

/-- The whitespace accepted by JSON.parse: space, tab, newline, return. -/
def isJsonWs (c : Char) : Bool :=
  c == ' ' || c == '\t' || c == '\n' || c == '\r'

/-- Skip JSON whitespace. -/
def skipJsonWs (cs : List Char) : List Char := cs.dropWhile isJsonWs

/-- Value of one hexadecimal digit. -/
def hexVal (c : Char) : Option Nat :=
  if '0' ≤ c ∧ c ≤ '9' then some (c.toNat - '0'.toNat)
  else if 'a' ≤ c ∧ c ≤ 'f' then some (c.toNat - 'a'.toNat + 10)
  else if 'A' ≤ c ∧ c ≤ 'F' then some (c.toNat - 'A'.toNat + 10)
  else none

/-- The single character escapes of JSON strings. -/
def escapeChar (c : Char) : Option Char :=
  if c = '"' then some '"'
  else if c = '\\' then some '\\'
  else if c = '/' then some '/'
  else if c = 'b' then some (Char.ofNat 8)
  else if c = 'f' then some (Char.ofNat 12)
  else if c = 'n' then some '\n'
  else if c = 'r' then some '\r'
  else if c = 't' then some '\t'
  else none

/-- Body of a JSON string literal after the opening quote: returns the
decoded characters and the input following the closing quote.  Unescaped
control characters are rejected, as JSON.parse rejects them. -/
def parseStringBody : List Char → Option (List Char × List Char)
  | [] => none
  | '"' :: rest => some ([], rest)
  | '\\' :: 'u' :: h1 :: h2 :: h3 :: h4 :: rest =>
    (match hexVal h1, hexVal h2, hexVal h3, hexVal h4 with
     | some a, some b, some c, some d =>
       let code := ((a * 16 + b) * 16 + c) * 16 + d
       if code < 0xd800 ∨ 0xdfff < code then
         (parseStringBody rest).map (fun p => (Char.ofNat code :: p.1, p.2))
       else none
     | _, _, _, _ => none)
  | '\\' :: e :: rest =>
    (match escapeChar e with
     | some c => (parseStringBody rest).map (fun p => (c :: p.1, p.2))
     | none => none)
  | c :: rest =>
    if c.toNat < 32 then none
    else (parseStringBody rest).map (fun p => (c :: p.1, p.2))

/-- Optional fraction part of a JSON number; a bare dot is not consumed. -/
def parseFracPart : List Char → List Char × List Char
  | '.' :: r =>
    let ds := r.takeWhile Char.isDigit
    if ds.isEmpty then ([], '.' :: r)
    else ('.' :: ds, r.dropWhile Char.isDigit)
  | cs => ([], cs)

/-- Optional exponent part of a JSON number; a malformed exponent is not
consumed (the stray characters then fail the surrounding parse, exactly
as they make JSON.parse raise). -/
def parseExpPart : List Char → List Char × List Char
  | [] => ([], [])
  | e :: r =>
    if e = 'e' ∨ e = 'E' then
      let (sgn, r2) :=
        match r with
        | '+' :: t => ((['+'] : List Char), t)
        | '-' :: t => ((['-'] : List Char), t)
        | _ => (([] : List Char), r)
      let ds := r2.takeWhile Char.isDigit
      if ds.isEmpty then ([], e :: r)
      else (e :: (sgn ++ ds), r2.dropWhile Char.isDigit)
    else ([], e :: r)

/-- A JSON number token: optional minus, integer part without leading
zeros, optional fraction, optional exponent.  Returns the lexeme. -/
def parseNumber (cs : List Char) : Option (String × List Char) :=
  let (sign, cs1) :=
    match cs with
    | '-' :: r => ((['-'] : List Char), r)
    | _ => (([] : List Char), cs)
  match cs1 with
  | [] => none
  | c :: r =>
    if c = '0' then
      let (frac, r2) := parseFracPart r
      let (ex, r3) := parseExpPart r2
      some (String.mk (sign ++ [c] ++ frac ++ ex), r3)
    else if c.isDigit then
      let ds := r.takeWhile Char.isDigit
      let r1 := r.dropWhile Char.isDigit
      let (frac, r2) := parseFracPart r1
      let (ex, r3) := parseExpPart r2
      some (String.mk (sign ++ [c] ++ ds ++ frac ++ ex), r3)
    else none

/-- Drop an expected literal sequence from the front of the input. -/
def dropPrefixChars : List Char → List Char → Option (List Char)
  | [], cs => some cs
  | _ :: _, [] => none
  | p :: ps, c :: cs => if c = p then dropPrefixChars ps cs else none

/-- Does the input begin with the given literal sequence? -/
def listStartsWith (p cs : List Char) : Bool := (dropPrefixChars p cs).isSome

mutual

/-- One JSON value, fueled recursive descent; expects no leading
whitespace. -/
def parseValue : Nat → List Char → Option (Json × List Char)
  | 0, _ => none
  | _ + 1, [] => none
  | fuel + 1, c :: rest =>
    if c = '{' then parseObjectBody fuel rest
    else if c = '[' then parseArrayBody fuel rest
    else if c = '"' then
      (parseStringBody rest).map (fun p => (Json.str (String.mk p.1), p.2))
    else if c = 't' then
      (dropPrefixChars ['r', 'u', 'e'] rest).map (fun r => (Json.bool true, r))
    else if c = 'f' then
      (dropPrefixChars ['a', 'l', 's', 'e'] rest).map (fun r => (Json.bool false, r))
    else if c = 'n' then
      (dropPrefixChars ['u', 'l', 'l'] rest).map (fun r => (Json.null, r))
    else (parseNumber (c :: rest)).map (fun p => (Json.num p.1, p.2))

/-- Object body after the opening brace. -/
def parseObjectBody : Nat → List Char → Option (Json × List Char)
  | 0, _ => none
  | fuel + 1, cs =>
    match skipJsonWs cs with
    | '}' :: rest => some (Json.obj [], rest)
    | _ => (parseMembers fuel [] cs).map (fun p => (Json.obj p.1, p.2))

/-- Members of a non-empty object; duplicate keys overwrite in place,
as the JavaScript builtin does. -/
def parseMembers :
    Nat → List (String × Json) → List Char → Option (List (String × Json) × List Char)
  | 0, _, _ => none
  | fuel + 1, acc, cs =>
    match skipJsonWs cs with
    | '"' :: rest =>
      (match parseStringBody rest with
       | some (keyChars, rest2) =>
         (match skipJsonWs rest2 with
          | ':' :: rest3 =>
            (match parseValue fuel (skipJsonWs rest3) with
             | some (v, rest4) =>
               (match skipJsonWs rest4 with
                | ',' :: rest5 =>
                  parseMembers fuel (setFieldList acc (String.mk keyChars) v) rest5
                | '}' :: rest5 => some (setFieldList acc (String.mk keyChars) v, rest5)
                | _ => none)
             | none => none)
          | _ => none)
       | none => none)
    | _ => none

/-- Array body after the opening bracket. -/
def parseArrayBody : Nat → List Char → Option (Json × List Char)
  | 0, _ => none
  | fuel + 1, cs =>
    match skipJsonWs cs with
    | ']' :: rest => some (Json.arr [], rest)
    | _ => (parseElements fuel [] cs).map (fun p => (Json.arr p.1, p.2))

/-- Elements of a non-empty array. -/
def parseElements : Nat → List Json → List Char → Option (List Json × List Char)
  | 0, _, _ => none
  | fuel + 1, acc, cs =>
    match parseValue fuel (skipJsonWs cs) with
    | some (v, rest) =>
      (match skipJsonWs rest with
       | ',' :: rest2 => parseElements fuel (acc ++ [v]) rest2
       | ']' :: rest2 => some (acc ++ [v], rest2)
       | _ => none)
    | none => none

end

/-- Strict JSON.parse on a character list: exactly one value, optional
surrounding whitespace, nothing else.  The fuel bound is generous: the
mutual descent consumes at most a constant amount of fuel per input
character. -/
def Json.parseChars (cs : List Char) : Option Json :=
  match parseValue (4 * cs.length + 4) (skipJsonWs cs) with
  | some (v, rest) => if (skipJsonWs rest).isEmpty then some v else none
  | none => none

/-- Strict JSON.parse on a string. -/
def Json.parse (s : String) : Option Json := Json.parseChars s.data

/-- Does a JSON number lexeme denote zero (every mantissa digit is 0)? -/
def isZeroLexeme (lex : String) : Bool :=
  (lex.data.takeWhile (fun c => c != 'e' && c != 'E')).all
    (fun c => !(Nat.ble 49 c.toNat && Nat.ble c.toNat 57))

/-- JavaScript truthiness of a JSON.parse result. -/
def jsTruthy : Json → Bool
  | Json.null => false
  | Json.bool b => b
  | Json.num lex => !isZeroLexeme lex
  | Json.str s => !s.data.isEmpty
  | Json.arr _ => true
  | Json.obj _ => true

/-! ## The extraction regex

The services extract JSON from the model response with

  responseText.match(/```json\s*(\{[\s\S]*?\})\s*```|(\{[\s\S]*\})/)

The embedding below follows the JavaScript engine: start positions are
tried left to right, at each position the fenced alternative is tried
before the bare alternative, the lazy body of the fenced alternative
stops at the first closing brace whose continuation matches, and the
greedy bare body extends to the last closing brace of the input. -/

/-- The character class \s of JavaScript regular expressions. -/
def isRegexWs (c : Char) : Bool :=
  let n := c.toNat
  n == 32 || n == 9 || n == 10 || n == 11 || n == 12 || n == 13 ||
  n == 0xa0 || n == 0x1680 || (Nat.ble 0x2000 n && Nat.ble n 0x200a) ||
  n == 0x2028 || n == 0x2029 || n == 0x202f || n == 0x205f ||
  n == 0x3000 || n == 0xfeff

/-- Skip \s characters. -/
def skipRegexWs (cs : List Char) : List Char := cs.dropWhile isRegexWs

/-- Three backticks, the closing fence. -/
def backticks : List Char := ['`', '`', '`']

/-- The literal opening of the fenced alternative. -/
def fencedHeader : List Char := ['`', '`', '`', 'j', 's', 'o', 'n']

/-- The lazy body after the opening brace of the fenced alternative:
the shortest prefix ending in a closing brace that is followed by
optional \s and the closing fence.  Returns the body including that
closing brace. -/
def fencedBody : List Char → Option (List Char)
  | [] => none
  | c :: rest =>
    if c = '}' ∧ listStartsWith backticks (skipRegexWs rest) = true then some [c]
    else (fencedBody rest).map (fun b => c :: b)

/-- Match of the fenced alternative anchored at the head of the input;
returns capture group 1, braces included. -/
def fencedAt (cs : List Char) : Option (List Char) :=
  match dropPrefixChars fencedHeader cs with
  | none => none
  | some rest =>
    match skipRegexWs rest with
    | [] => none
    | c :: rest2 =>
      if c = '{' then (fencedBody rest2).map (fun b => '{' :: b) else none

/-- Longest prefix of the input that ends in a closing brace, in other
words everything up to and including the last closing brace. -/
def dropAfterLastClose : List Char → Option (List Char)
  | [] => none
  | c :: rest =>
    match dropAfterLastClose rest with
    | some p => some (c :: p)
    | none => if c = '}' then some [c] else none

/-- Match of the greedy bare alternative anchored at the head of the
input; returns capture group 2, braces included. -/
def bareAt : List Char → Option (List Char)
  | [] => none
  | c :: rest =>
    if c = '{' then (dropAfterLastClose rest).map (fun p => c :: p) else none

/-- The overall leftmost match of the alternation: scan start positions
left to right, fenced alternative first at each position.  Returns the
capture group the service goes on to parse. -/
def findJsonMatch : List Char → Option (List Char)
  | [] => none
  | c :: rest =>
    match fencedAt (c :: rest) with
    | some b => some b
    | none =>
      match bareAt (c :: rest) with
      | some b => some b
      | none => findJsonMatch rest

/-- extractJsonFromResponse of both services (they are identical up to
logging): null on empty input, otherwise match the regex, then strictly
JSON.parse the captured group, returning null when anything fails. -/
def extractJsonFromResponse (responseText : String) : Option Json :=
  if responseText.data.isEmpty then none
  else
    match findJsonMatch responseText.data with
    | some jsonChars => Json.parseChars jsonChars
    | none => none

/-! ## The two service modules -/

/-- Per-process state and per-call ambient inputs of a service module:
whether the module level generativeModel was set up, the outcome of the
opaque remote generateContent call including the response text access
(Except.error carries the message of a raised error), and the current
clock reading used for timestamps. -/
structure ServiceEnv where
  generativeModel : Bool
  remote : Except String String
  now : String

/-- Field k of the analysisMetadata field of a record. -/
def metaField (j : Json) (k : String) : Option Json :=
  match getField j "analysisMetadata" with
  | some m => getField m k
  | none => none

/-- The analysisMetadata.status field of a record. -/
def analysisStatus (j : Json) : Option Json := metaField j "status"

/-- One of the three failure causes happened: the adapter was never set
up, the remote call raised, or the normalizer returned null. -/
def failureOccurred (env : ServiceEnv) : Prop :=
  env.generativeModel = false
  ∨ (∃ e, env.remote = Except.error e)
  ∨ (∃ t, env.remote = Except.ok t ∧ extractJsonFromResponse t = none)

/-- The record carries analysisMetadata with at least the keys
timestamp, model and status. -/
def hasCoreMetadata (j : Json) : Prop :=
  ∃ m, getField j "analysisMetadata" = some m
    ∧ (getField m "timestamp").isSome
    ∧ (getField m "model").isSome
    ∧ (getField m "status").isSome

namespace GoogleGenAIService

/-- createErrorFallbackResponse of src/unnamed/part_000. -/
def createErrorFallbackResponse (now : String) (errorMsg : Option String)
    (healthConditions : List String) : Json :=
  Json.obj [
    ("foodName", Json.str "Analysis Failed"),
    ("description", Json.str "Unable to process image"),
    ("calories", Json.str "Unable to analyze"),
    ("servingSize", Json.str "Unknown"),
    ("nutritionFacts", Json.obj
      [("protein", Json.str "0g"), ("carbs", Json.str "0g"), ("fat", Json.str "0g")]),
    ("recommendation", Json.str
      "Unable to analyze image. You can try uploading a different image or enter the food name manually for analysis."),
    ("analysisMetadata", Json.obj [
      ("timestamp", Json.str now),
      ("model", Json.str "gemini-2.0-flash-001"),
      ("status", Json.str "error"),
      ("errorMessage", Json.str (errorMsg.getD "Unknown error")),
      ("healthConditionsConsidered", Json.arr (healthConditions.map Json.str))])]

/-- analyzeFoodImage of src/unnamed/part_000.  The image file takes no
part in the embedded control flow: it only feeds the opaque remote call. -/
def analyzeFoodImage (env : ServiceEnv) (imageFile : String)
    (healthConditions : List String) : Json :=
  if !env.generativeModel then
    createErrorFallbackResponse env.now (some "Google GenAI service not initialized") []
  else
    match env.remote with
    | Except.error e => createErrorFallbackResponse env.now (some e) healthConditions
    | Except.ok responseText =>
      match extractJsonFromResponse responseText with
      | some parsedData =>
        if jsTruthy parsedData then
          setField parsedData "analysisMetadata"
            (Json.obj [("timestamp", Json.str env.now),
                       ("model", Json.str "gemini-2.0-flash-001")])
        else
          createErrorFallbackResponse env.now
            (some "Failed to parse JSON response from AI.") []
      | none =>
        createErrorFallbackResponse env.now
          (some "Failed to parse JSON response from AI.") []

/-- analyzeFoodByName of src/unnamed/part_000. -/
def analyzeFoodByName (env : ServiceEnv) (foodName : String)
    (healthConditions : List String) : Json :=
  if !env.generativeModel then
    createErrorFallbackResponse env.now (some "Google GenAI service not initialized") []
  else
    match env.remote with
    | Except.error e => createErrorFallbackResponse env.now (some e) []
    | Except.ok responseText =>
      match extractJsonFromResponse responseText with
      | some parsedData =>
        if jsTruthy parsedData then parsedData
        else
          createErrorFallbackResponse env.now
            (some "Failed to parse JSON response from AI.") []
      | none =>
        createErrorFallbackResponse env.now
          (some "Failed to parse JSON response from AI.") []

/-- generateHealthyRecipe of src/unnamed/part_000. -/
def generateHealthyRecipe (env : ServiceEnv) (ingredients : List String)
    (healthConditions : List String) (dietaryPreferences : List (String × String)) : Json :=
  if !env.generativeModel then
    createErrorFallbackResponse env.now (some "Google GenAI service not initialized") []
  else
    match env.remote with
    | Except.error e => createErrorFallbackResponse env.now (some e) []
    | Except.ok responseText =>
      match extractJsonFromResponse responseText with
      | some parsedData =>
        if jsTruthy parsedData then parsedData
        else
          createErrorFallbackResponse env.now
            (some "Failed to parse JSON response from AI.") []
      | none =>
        createErrorFallbackResponse env.now
          (some "Failed to parse JSON response from AI.") []

end GoogleGenAIService

namespace VertexAIGenAIService

/-- createErrorFallbackResponse of
src/backend/src/services/vertexAIGenAIService.js. -/
def createErrorFallbackResponse (errorMsg : Option String) : Json :=
  Json.obj [
    ("foodName", Json.str "Analysis Failed"),
    ("description", Json.str "Unable to process image"),
    ("analysisMetadata", Json.obj [
      ("status", Json.str "error"),
      ("errorMessage", Json.str (errorMsg.getD "Unknown error"))])]

/-- analyzeFoodImage of src/backend/src/services/vertexAIGenAIService.js. -/
def analyzeFoodImage (env : ServiceEnv) (imageFile : String)
    (healthConditions : List String) : Json :=
  if !env.generativeModel then
    createErrorFallbackResponse (some "Vertex AI service not initialized. Check server logs.")
  else
    match env.remote with
    | Except.error e => createErrorFallbackResponse (some e)
    | Except.ok responseText =>
      match extractJsonFromResponse responseText with
      | some parsedData =>
        if jsTruthy parsedData then parsedData
        else createErrorFallbackResponse (some "Failed to parse JSON response from AI.")
      | none => createErrorFallbackResponse (some "Failed to parse JSON response from AI.")

/-- analyzeFoodByName of src/backend/src/services/vertexAIGenAIService.js. -/
def analyzeFoodByName (env : ServiceEnv) (foodName : String)
    (healthConditions : List String) : Json :=
  if !env.generativeModel then
    createErrorFallbackResponse (some "Vertex AI service not initialized.")
  else
    match env.remote with
    | Except.error e => createErrorFallbackResponse (some e)
    | Except.ok responseText =>
      match extractJsonFromResponse responseText with
      | some parsedData =>
        if jsTruthy parsedData then parsedData
        else createErrorFallbackResponse (some "Failed to parse JSON response from AI.")
      | none => createErrorFallbackResponse (some "Failed to parse JSON response from AI.")

/-- generateHealthyRecipe of src/backend/src/services/vertexAIGenAIService.js. -/
def generateHealthyRecipe (env : ServiceEnv) (ingredients : List String)
    (healthConditions : List String) (dietaryPreferences : List (String × String)) : Json :=
  if !env.generativeModel then
    createErrorFallbackResponse (some "Vertex AI service not initialized.")
  else
    match env.remote with
    | Except.error e => createErrorFallbackResponse (some e)
    | Except.ok responseText =>
      match extractJsonFromResponse responseText with
      | some parsedData =>
        if jsTruthy parsedData then parsedData
        else createErrorFallbackResponse (some "Failed to parse JSON response from AI.")
      | none => createErrorFallbackResponse (some "Failed to parse JSON response from AI.")

end VertexAIGenAIService

/-! ## The credential resolver

src/backend/src/utils/vercelServiceAccountHelper.js, second document
(the Vercel oriented variant the claims cite).  The environment offers
up to three sources; a present environment variable is a non-empty
string.  Node buffer base64 decoding is total (it never throws, invalid
characters are skipped), so it enters the embedding as an arbitrary
function from strings to strings. -/

/-- The three candidate sources: the base64 environment variable, the
raw environment variable, and the contents of the conventional local
file when it exists. -/
structure CredEnv where
  b64Key : Option String
  rawKey : Option String
  fileJson : Option String

/-- The global replacement key.replace(/\\n/g, a newline) of
parseServiceAccountKey: every two character backslash n sequence becomes
an actual newline, scanning left to right. -/
def replaceEscapedNewlines : List Char → List Char
  | [] => []
  | '\\' :: 'n' :: rest => '\n' :: replaceEscapedNewlines rest
  | c :: rest => c :: replaceEscapedNewlines rest

/-- parseServiceAccountKey of vercelServiceAccountHelper.js: null on an
absent or empty key, otherwise JSON.parse of the replaced string, null
instead of an exception when that parse fails. -/
def parseServiceAccountKey (key : String) : Option Json :=
  if key.data.isEmpty then none
  else Json.parseChars (replaceEscapedNewlines key.data)

/-- The base64 branch of getVertexServiceAccount: when the variable is
present (non-empty), decode and JSON.parse; any failure falls through. -/
def tryB64Source (decode : String → String) (env : CredEnv) : Option Json :=
  match env.b64Key with
  | some s => if s.data.isEmpty then none else Json.parse (decode s)
  | none => none

/-- The raw environment branch of getVertexServiceAccount: when the
variable is present, parseServiceAccountKey, returned only when the
parsed value is truthy. -/
def tryRawEnvSource (env : CredEnv) : Option Json :=
  match env.rawKey with
  | some s =>
    if s.data.isEmpty then none
    else
      match parseServiceAccountKey s with
      | some j => if jsTruthy j then some j else none
      | none => none
  | none => none

/-- The file branch of getVertexServiceAccount: when the file exists,
require parses it as JSON; a raised parse error is caught and falls
through to the final throw. -/
def tryFileSource (env : CredEnv) : Option Json :=
  match env.fileJson with
  | some contents => Json.parse contents
  | none => none

/-- The message of the error thrown when every source is exhausted. -/
def credentialsNotFoundMessage : String :=
  "Vertex AI service account credentials not found or invalid"

/-- getVertexServiceAccount of vercelServiceAccountHelper.js: the three
sources in priority order, first success wins, throw when all fail. -/
def getVertexServiceAccount (decode : String → String) (env : CredEnv) :
    Except String Json :=
  match tryB64Source decode env with
  | some j => Except.ok j
  | none =>
    match tryRawEnvSource env with
    | some j => Except.ok j
    | none =>
      match tryFileSource env with
      | some j => Except.ok j
      | none => Except.error credentialsNotFoundMessage

/-- The replacement key.replace(/\n/g, backslash n) of setupCredentials
in src/tests/backend-tests/run-test.cjs: every actual newline becomes
the two character backslash n sequence. -/
def escapeRawNewlines : List Char → List Char
  | [] => []
  | '\n' :: rest => '\\' :: 'n' :: escapeRawNewlines rest
  | c :: rest => c :: escapeRawNewlines rest

/-- The parse logic of setupCredentials in
src/tests/backend-tests/run-test.cjs: first JSON.parse of the key with
raw newlines escaped, and if that raises, JSON.parse of the unmodified
key; the surrounding file writing is outside the embedded core. -/
def setupCredentialsParse (key : String) : Option Json :=
  match Json.parseChars (escapeRawNewlines key.data) with
  | some j => some j
  | none => Json.parseChars key.data

/-- Modelled from the spec: the two strategy raw environment parse the
claim describes (spec section 4.1 step 2) and which is absent from
getVertexServiceAccount — first JSON.parse after turning escaped
newline sequences into actual newlines, then on failure JSON.parse
after escaping actual newlines into backslash n sequences. -/
def specRawEnvTwoStrategyParse (key : String) : Option Json :=
  match Json.parseChars (replaceEscapedNewlines key.data) with
  | some j => some j
  | none => Json.parseChars (escapeRawNewlines key.data)

/-! ## Helper lemmas -/

theorem setField_isObj (j : Json) (k : String) (v : Json) (h : j.isObj = true) :
    (setField j k v).isObj = true := by
  cases j <;> simp_all [setField, Json.isObj]

theorem lookupField_setFieldList_self (fs : List (String × Json)) (k : String) (v : Json) :
    lookupField (setFieldList fs k v) k = some v := by
  induction fs with
  | nil => simp [setFieldList, lookupField]
  | cons kv rest ih =>
    obtain ⟨k', v'⟩ := kv
    by_cases hk : k' = k
    · simp [setFieldList, lookupField, hk]
    · simp [setFieldList, lookupField, hk, ih]

theorem getField_setField_obj (j : Json) (k : String) (v : Json) (h : j.isObj = true) :
    getField (setField j k v) k = some v := by
  cases j <;> simp_all [setField, getField, Json.isObj, lookupField_setFieldList_self]

theorem parseObjectBody_isObj (fuel : Nat) (cs : List Char) (v : Json) (r : List Char)
    (h : parseObjectBody fuel cs = some (v, r)) : v.isObj = true := by
  cases fuel with
  | zero => simp [parseObjectBody] at h
  | succ f =>
    simp only [parseObjectBody] at h
    split at h
    · injection h with h1
      injection h1 with h2 h3
      subst h2
      rfl
    · rw [Option.map_eq_some'] at h
      obtain ⟨p, _, heq⟩ := h
      injection heq with h1 h2
      subst h1
      rfl

theorem parseValue_brace_isObj (fuel : Nat) (rest : List Char) (v : Json) (r : List Char)
    (h : parseValue fuel ('{' :: rest) = some (v, r)) : v.isObj = true := by
  cases fuel with
  | zero => simp [parseValue] at h
  | succ f =>
    simp only [parseValue, if_pos rfl] at h
    exact parseObjectBody_isObj f rest v r h

theorem skipJsonWs_brace (r : List Char) : skipJsonWs ('{' :: r) = '{' :: r := rfl

theorem parseChars_brace_isObj (rest : List Char) (v : Json)
    (h : Json.parseChars ('{' :: rest) = some v) : v.isObj = true := by
  unfold Json.parseChars at h
  rw [skipJsonWs_brace] at h
  split at h
  next v' r' heq =>
    split at h
    · have hv : v' = v := by simpa using h
      exact hv ▸ parseValue_brace_isObj _ _ _ _ heq
    · simp at h
  next => simp at h

theorem fencedAt_some_brace (cs b : List Char) (h : fencedAt cs = some b) :
    ∃ r, b = '{' :: r := by
  unfold fencedAt at h
  split at h
  · exact absurd h (by simp)
  · split at h
    · exact absurd h (by simp)
    · split at h
      · rw [Option.map_eq_some'] at h
        obtain ⟨a, _, heq⟩ := h
        exact ⟨a, heq.symm⟩
      · exact absurd h (by simp)

theorem bareAt_some_brace (cs b : List Char) (h : bareAt cs = some b) :
    ∃ r, b = '{' :: r := by
  unfold bareAt at h
  split at h
  · exact absurd h (by simp)
  next c rest =>
    split at h
    next hc =>
      rw [Option.map_eq_some'] at h
      obtain ⟨a, _, heq⟩ := h
      exact ⟨a, by rw [← heq, hc]⟩
    · exact absurd h (by simp)

theorem findJsonMatch_some_brace (cs b : List Char) (h : findJsonMatch cs = some b) :
    ∃ r, b = '{' :: r := by
  induction cs with
  | nil => exact absurd h (by simp [findJsonMatch])
  | cons c rest ih =>
    simp only [findJsonMatch] at h
    cases hf : fencedAt (c :: rest) with
    | some fb =>
      rw [hf] at h
      obtain rfl : fb = b := by simpa using h
      exact fencedAt_some_brace _ _ hf
    | none =>
      rw [hf] at h
      cases hb : bareAt (c :: rest) with
      | some bb =>
        rw [hb] at h
        obtain rfl : bb = b := by simpa using h
        exact bareAt_some_brace _ _ hb
      | none =>
        rw [hb] at h
        exact ih h

theorem extract_some_isObj (t : String) (p : Json)
    (h : extractJsonFromResponse t = some p) : p.isObj = true := by
  unfold extractJsonFromResponse at h
  split at h
  · exact absurd h (by simp)
  · split at h
    next b hm =>
      obtain ⟨r, rfl⟩ := findJsonMatch_some_brace _ _ hm
      exact parseChars_brace_isObj _ _ h
    · exact absurd h (by simp)

theorem mem_of_mem_dropWhile {p : Char → Bool} {l : List Char} {x : Char}
    (h : x ∈ l.dropWhile p) : x ∈ l := by
  induction l with
  | nil => simpa using h
  | cons a as ih =>
    rw [List.dropWhile_cons] at h
    split at h
    · exact List.mem_cons_of_mem a (ih h)
    · exact h

theorem dropPrefixChars_mem (p cs r : List Char) (h : dropPrefixChars p cs = some r)
    {x : Char} (hx : x ∈ r) : x ∈ cs := by
  induction p generalizing cs with
  | nil =>
    obtain rfl : cs = r := by simpa [dropPrefixChars] using h
    exact hx
  | cons a as ih =>
    cases cs with
    | nil => exact absurd h (by simp [dropPrefixChars])
    | cons c cs' =>
      simp only [dropPrefixChars] at h
      split at h
      · exact List.mem_cons_of_mem c (ih cs' h)
      · exact absurd h (by simp)

theorem fencedAt_none_of_no_brace (cs : List Char) (h : '{' ∉ cs) : fencedAt cs = none := by
  unfold fencedAt
  split
  · rfl
  next rest heq1 =>
    split
    · rfl
    next c rest2 heq2 =>
      rw [if_neg]
      intro hc
      subst hc
      have h1 : '{' ∈ skipRegexWs rest := by rw [heq2]; exact List.mem_cons_self _ _
      have h2 : '{' ∈ rest := mem_of_mem_dropWhile h1
      exact h (dropPrefixChars_mem _ _ _ heq1 h2)

theorem bareAt_cons_ne (c : Char) (l : List Char) (h : c ≠ '{') :
    bareAt (c :: l) = none := by
  simp [bareAt, h]

theorem fencedAt_cons_ne (c : Char) (l : List Char) (h : c ≠ '`') :
    fencedAt (c :: l) = none := by
  unfold fencedAt
  have hd : dropPrefixChars fencedHeader (c :: l) = none := by
    simp [dropPrefixChars, fencedHeader, h]
  rw [hd]

theorem findJsonMatch_cons_none (c : Char) (rest : List Char)
    (h1 : fencedAt (c :: rest) = none) (h2 : bareAt (c :: rest) = none) :
    findJsonMatch (c :: rest) = findJsonMatch rest := by
  simp only [findJsonMatch, h1, h2]

theorem findJsonMatch_none_of_no_brace (cs : List Char) (h : '{' ∉ cs) :
    findJsonMatch cs = none := by
  induction cs with
  | nil => rfl
  | cons c rest ih =>
    have hc : c ≠ '{' := by
      intro hcc
      exact h (hcc ▸ List.mem_cons_self c rest)
    rw [findJsonMatch_cons_none c rest (fencedAt_none_of_no_brace _ h) (bareAt_cons_ne c rest hc)]
    exact ih (fun hx => h (List.mem_cons_of_mem c hx))

theorem dropAfterLastClose_isSome_of_mem (l : List Char) (h : '}' ∈ l) :
    (dropAfterLastClose l).isSome = true := by
  induction l with
  | nil => simp at h
  | cons c rest ih =>
    simp only [dropAfterLastClose]
    cases hd : dropAfterLastClose rest with
    | some p => simp
    | none =>
      rcases List.mem_cons.mp h with hc | hm
      · simp [← hc]
      · rw [hd] at ih
        exact absurd (ih hm) (by simp)

theorem dropAfterLastClose_split (l p : List Char) (h : dropAfterLastClose l = some p) :
    ∃ q suff, p = q ++ ['}'] ∧ l = p ++ suff ∧ '}' ∉ suff := by
  induction l generalizing p with
  | nil => exact absurd h (by simp [dropAfterLastClose])
  | cons c rest ih =>
    simp only [dropAfterLastClose] at h
    cases hd : dropAfterLastClose rest with
    | some p' =>
      rw [hd] at h
      obtain rfl : c :: p' = p := by simpa using h
      obtain ⟨q, suff, hq, hl, hs⟩ := ih p' hd
      exact ⟨c :: q, suff, by rw [hq]; rfl, by rw [hl, List.cons_append], hs⟩
    | none =>
      rw [hd] at h
      by_cases hc : c = '}'
      · rw [if_pos hc] at h
        obtain rfl : [c] = p := by simpa using h
        refine ⟨[], rest, by simp [hc], by simp, ?_⟩
        intro hm
        exact absurd (hd ▸ dropAfterLastClose_isSome_of_mem rest hm) (by simp)
      · rw [if_neg hc] at h
        exact absurd h (by simp)

theorem findJsonMatch_append (pre tail : List Char)
    (h : ∀ n, n < pre.length →
       fencedAt ((pre ++ tail).drop n) = none ∧ bareAt ((pre ++ tail).drop n) = none) :
    findJsonMatch (pre ++ tail) = findJsonMatch tail := by
  induction pre with
  | nil => rfl
  | cons c pre ih =>
    have h0 := h 0 (by simp)
    simp only [List.drop_zero, List.cons_append] at h0
    rw [List.cons_append, findJsonMatch_cons_none c (pre ++ tail) h0.1 h0.2]
    refine ih (fun n hn => ?_)
    have := h (n + 1) (by simpa using Nat.succ_lt_succ hn)
    simpa [List.cons_append] using this

theorem statusOfFallbackG (now : String) (msg : Option String) (hc : List String) :
    analysisStatus (GoogleGenAIService.createErrorFallbackResponse now msg hc) =
      some (Json.str "error") := rfl

theorem isObjOfFallbackG (now : String) (msg : Option String) (hc : List String) :
    (GoogleGenAIService.createErrorFallbackResponse now msg hc).isObj = true := rfl

theorem statusOfFallbackV (msg : Option String) :
    analysisStatus (VertexAIGenAIService.createErrorFallbackResponse msg) =
      some (Json.str "error") := rfl

theorem isObjOfFallbackV (msg : Option String) :
    (VertexAIGenAIService.createErrorFallbackResponse msg).isObj = true := rfl

theorem G_image_notReady (remote : Except String String) (now imageFile : String) (hc : List String) :
    GoogleGenAIService.analyzeFoodImage ⟨false, remote, now⟩ imageFile hc =
      GoogleGenAIService.createErrorFallbackResponse now
        (some "Google GenAI service not initialized") [] := rfl

theorem G_image_error (e now imageFile : String) (hc : List String) :
    GoogleGenAIService.analyzeFoodImage ⟨true, Except.error e, now⟩ imageFile hc =
      GoogleGenAIService.createErrorFallbackResponse now (some e) hc := rfl

theorem G_image_ok (t now imageFile : String) (hc : List String) :
    GoogleGenAIService.analyzeFoodImage ⟨true, Except.ok t, now⟩ imageFile hc =
      (match extractJsonFromResponse t with
       | some parsedData =>
         if jsTruthy parsedData then
           setField parsedData "analysisMetadata"
             (Json.obj [("timestamp", Json.str now),
                        ("model", Json.str "gemini-2.0-flash-001")])
         else
           GoogleGenAIService.createErrorFallbackResponse now
             (some "Failed to parse JSON response from AI.") []
       | none =>
         GoogleGenAIService.createErrorFallbackResponse now
           (some "Failed to parse JSON response from AI.") []) := rfl

theorem G_byName_notReady (remote : Except String String) (now foodName : String) (hc : List String) :
    GoogleGenAIService.analyzeFoodByName ⟨false, remote, now⟩ foodName hc =
      GoogleGenAIService.createErrorFallbackResponse now
        (some "Google GenAI service not initialized") [] := rfl

theorem G_byName_error (e now foodName : String) (hc : List String) :
    GoogleGenAIService.analyzeFoodByName ⟨true, Except.error e, now⟩ foodName hc =
      GoogleGenAIService.createErrorFallbackResponse now (some e) [] := rfl

theorem G_byName_ok (t now foodName : String) (hc : List String) :
    GoogleGenAIService.analyzeFoodByName ⟨true, Except.ok t, now⟩ foodName hc =
      (match extractJsonFromResponse t with
       | some parsedData =>
         if jsTruthy parsedData then parsedData
         else
           GoogleGenAIService.createErrorFallbackResponse now
             (some "Failed to parse JSON response from AI.") []
       | none =>
         GoogleGenAIService.createErrorFallbackResponse now
           (some "Failed to parse JSON response from AI.") []) := rfl

theorem G_recipe_notReady (remote : Except String String) (now : String)
    (ingredients hc : List String) (dp : List (String × String)) :
    GoogleGenAIService.generateHealthyRecipe ⟨false, remote, now⟩ ingredients hc dp =
      GoogleGenAIService.createErrorFallbackResponse now
        (some "Google GenAI service not initialized") [] := rfl

theorem G_recipe_error (e now : String) (ingredients hc : List String)
    (dp : List (String × String)) :
    GoogleGenAIService.generateHealthyRecipe ⟨true, Except.error e, now⟩ ingredients hc dp =
      GoogleGenAIService.createErrorFallbackResponse now (some e) [] := rfl

theorem G_recipe_ok (t now : String) (ingredients hc : List String)
    (dp : List (String × String)) :
    GoogleGenAIService.generateHealthyRecipe ⟨true, Except.ok t, now⟩ ingredients hc dp =
      (match extractJsonFromResponse t with
       | some parsedData =>
         if jsTruthy parsedData then parsedData
         else
           GoogleGenAIService.createErrorFallbackResponse now
             (some "Failed to parse JSON response from AI.") []
       | none =>
         GoogleGenAIService.createErrorFallbackResponse now
           (some "Failed to parse JSON response from AI.") []) := rfl

theorem V_image_notReady (remote : Except String String) (now imageFile : String) (hc : List String) :
    VertexAIGenAIService.analyzeFoodImage ⟨false, remote, now⟩ imageFile hc =
      VertexAIGenAIService.createErrorFallbackResponse
        (some "Vertex AI service not initialized. Check server logs.") := rfl

theorem V_image_error (e now imageFile : String) (hc : List String) :
    VertexAIGenAIService.analyzeFoodImage ⟨true, Except.error e, now⟩ imageFile hc =
      VertexAIGenAIService.createErrorFallbackResponse (some e) := rfl

theorem V_image_ok (t now imageFile : String) (hc : List String) :
    VertexAIGenAIService.analyzeFoodImage ⟨true, Except.ok t, now⟩ imageFile hc =
      (match extractJsonFromResponse t with
       | some parsedData =>
         if jsTruthy parsedData then parsedData
         else
           VertexAIGenAIService.createErrorFallbackResponse
             (some "Failed to parse JSON response from AI.")
       | none =>
         VertexAIGenAIService.createErrorFallbackResponse
           (some "Failed to parse JSON response from AI.")) := rfl

theorem V_byName_notReady (remote : Except String String) (now foodName : String) (hc : List String) :
    VertexAIGenAIService.analyzeFoodByName ⟨false, remote, now⟩ foodName hc =
      VertexAIGenAIService.createErrorFallbackResponse
        (some "Vertex AI service not initialized.") := rfl

theorem V_byName_error (e now foodName : String) (hc : List String) :
    VertexAIGenAIService.analyzeFoodByName ⟨true, Except.error e, now⟩ foodName hc =
      VertexAIGenAIService.createErrorFallbackResponse (some e) := rfl

theorem V_byName_ok (t now foodName : String) (hc : List String) :
    VertexAIGenAIService.analyzeFoodByName ⟨true, Except.ok t, now⟩ foodName hc =
      (match extractJsonFromResponse t with
       | some parsedData =>
         if jsTruthy parsedData then parsedData
         else
           VertexAIGenAIService.createErrorFallbackResponse
             (some "Failed to parse JSON response from AI.")
       | none =>
         VertexAIGenAIService.createErrorFallbackResponse
           (some "Failed to parse JSON response from AI.")) := rfl

theorem V_recipe_notReady (remote : Except String String) (now : String)
    (ingredients hc : List String) (dp : List (String × String)) :
    VertexAIGenAIService.generateHealthyRecipe ⟨false, remote, now⟩ ingredients hc dp =
      VertexAIGenAIService.createErrorFallbackResponse
        (some "Vertex AI service not initialized.") := rfl

theorem V_recipe_error (e now : String) (ingredients hc : List String)
    (dp : List (String × String)) :
    VertexAIGenAIService.generateHealthyRecipe ⟨true, Except.error e, now⟩ ingredients hc dp =
      VertexAIGenAIService.createErrorFallbackResponse (some e) := rfl

theorem V_recipe_ok (t now : String) (ingredients hc : List String)
    (dp : List (String × String)) :
    VertexAIGenAIService.generateHealthyRecipe ⟨true, Except.ok t, now⟩ ingredients hc dp =
      (match extractJsonFromResponse t with
       | some parsedData =>
         if jsTruthy parsedData then parsedData
         else
           VertexAIGenAIService.createErrorFallbackResponse
             (some "Failed to parse JSON response from AI.")
       | none =>
         VertexAIGenAIService.createErrorFallbackResponse
           (some "Failed to parse JSON response from AI.")) := rfl

/-! ## The claims -/

/-- Claim C4: for every string input the extractor is total (the
embedding returns an Option, never an exception) and returns null
exactly when the input is empty, when the combined regex finds no match,
or when the matched substring fails the strict JSON parse; in particular
the empty string and any string without an opening brace yield null. -/
theorem c4_extract_null_characterization :
    (∀ s : String, extractJsonFromResponse s = none ↔
       (s.data = [] ∨ findJsonMatch s.data = none ∨
        ∃ b, findJsonMatch s.data = some b ∧ Json.parseChars b = none))
    ∧ (∀ s : String, '{' ∉ s.data → extractJsonFromResponse s = none)
    ∧ extractJsonFromResponse "" = none := by
  refine ⟨fun s => ?_, fun s h => ?_, rfl⟩
  · unfold extractJsonFromResponse
    by_cases hd : s.data.isEmpty
    · rw [if_pos hd]
      simp [List.isEmpty_iff.mp hd]
    · rw [if_neg hd]
      have hne : s.data ≠ [] := by
        intro hh
        exact hd (by simp [hh])
      cases hm : findJsonMatch s.data with
      | none => simp [hne]
      | some b =>
        cases hp : Json.parseChars b with
        | none => simp [hne, hm, hp]
        | some v => simp [hne, hm, hp]
  · unfold extractJsonFromResponse
    by_cases hd : s.data.isEmpty
    · rw [if_pos hd]
    · rw [if_neg hd, findJsonMatch_none_of_no_brace s.data h]

/-- Witness for C4 at a concrete input without an opening brace. -/
theorem c4_witness : extractJsonFromResponse "no json here" = none :=
  c4_extract_null_characterization.2.1 "no json here" (by decide)

/-- Claim C5 counterexample: in this text the fenced pattern matches (at
offset 8) and the bare pattern matches (at offset 0), yet the extractor
does not select the fenced body — the bare match starts further left,
wins as the leftmost match, its greedy body swallows the fence opening,
and the parse of that body fails, so the extractor returns null instead
of the fenced object. -/
theorem c5_counterexample_bare_before_fence :
    (fencedAt (("\x7b\"b\":2\x7d ```json\n\x7b\"a\":1\x7d\n```").data.drop 8)).isSome = true
    ∧ (bareAt ("\x7b\"b\":2\x7d ```json\n\x7b\"a\":1\x7d\n```").data).isSome = true
    ∧ extractJsonFromResponse "\x7b\"b\":2\x7d ```json\n\x7b\"a\":1\x7d\n```" = none
    ∧ ¬ (extractJsonFromResponse "\x7b\"b\":2\x7d ```json\n\x7b\"a\":1\x7d\n```"
          = some (Json.obj [("a", Json.num "1")])) := by
  refine ⟨rfl, rfl, rfl, fun h => ?_⟩
  rw [show extractJsonFromResponse "\x7b\"b\":2\x7d ```json\n\x7b\"a\":1\x7d\n```" = none
      from rfl] at h
  exact Option.noConfusion h

/-- Claim C5 amended: the fenced alternative takes precedence at equal
start positions, and the overall match is the leftmost one; hence when
the text before a fenced match contains neither a backtick nor an
opening brace, the extractor selects the fenced body.  In particular the
example of the claim extracts the fenced object a maps to 1. -/
theorem c5_amended_fenced_precedence :
    (∀ pre tail b, (∀ c ∈ pre, c ≠ '`' ∧ c ≠ '{') → fencedAt tail = some b →
       findJsonMatch (pre ++ tail) = some b)
    ∧ extractJsonFromResponse "Here is data: ```json\n\x7b\"a\":1\x7d\n``` and \x7b\"b\":2\x7d"
        = some (Json.obj [("a", Json.num "1")]) := by
  constructor
  · intro pre tail b hpre hb
    have hcond : ∀ n, n < pre.length →
        fencedAt ((pre ++ tail).drop n) = none ∧ bareAt ((pre ++ tail).drop n) = none := by
      intro n hn
      rw [List.drop_append_of_le_length (le_of_lt hn), List.drop_eq_getElem_cons hn,
          List.cons_append]
      obtain ⟨h1, h2⟩ := hpre _ (List.getElem_mem hn)
      exact ⟨fencedAt_cons_ne _ _ h1, bareAt_cons_ne _ _ h2⟩
    rw [findJsonMatch_append pre tail hcond]
    cases tail with
    | nil => exact absurd hb (by rw [show fencedAt [] = none from rfl]; simp)
    | cons t ts => simp [findJsonMatch, hb]
  · rfl

/-- Witness for the general part of the amended C5 at concrete input. -/
theorem c5_amended_witness :
    findJsonMatch ("pre ".data ++ "```json \x7b\"a\":1\x7d ```".data)
      = some ("\x7b\"a\":1\x7d".data) :=
  c5_amended_fenced_precedence.1 "pre ".data "```json \x7b\"a\":1\x7d ```".data
    "\x7b\"a\":1\x7d".data (by decide) rfl

/-- Claim C10: when no fenced match exists anywhere in the text and the
text splits as pre plus an opening brace plus rest, with no opening
brace in pre and a closing brace later, the regex match is exactly the
substring from the first opening brace to the last closing brace of the
text (greedy), the extractor parses exactly that substring (null when
the parse fails), text between the braces is included and text after
the last closing brace is excluded. -/
theorem c10_bare_greedy_first_to_last (pre rest p : List Char)
    (hpre : '{' ∉ pre)
    (hp : dropAfterLastClose rest = some p)
    (hnf : ∀ n, n ≤ (pre ++ '{' :: rest).length →
       fencedAt ((pre ++ '{' :: rest).drop n) = none) :
    findJsonMatch (pre ++ '{' :: rest) = some ('{' :: p)
    ∧ extractJsonFromResponse (String.mk (pre ++ '{' :: rest)) = Json.parseChars ('{' :: p)
    ∧ ∃ q suff, p = q ++ ['}'] ∧ rest = p ++ suff ∧ '}' ∉ suff := by
  have hcond : ∀ n, n < pre.length →
      fencedAt ((pre ++ '{' :: rest).drop n) = none
      ∧ bareAt ((pre ++ '{' :: rest).drop n) = none := by
    intro n hn
    refine ⟨hnf n (by simp; omega), ?_⟩
    rw [List.drop_append_of_le_length (le_of_lt hn), List.drop_eq_getElem_cons hn,
        List.cons_append]
    exact bareAt_cons_ne _ _ (fun hh => hpre (hh ▸ List.getElem_mem hn))
  have hfa : fencedAt ('{' :: rest) = none := by
    have h := hnf pre.length (by simp)
    rwa [List.drop_left] at h
  have hfm : findJsonMatch (pre ++ '{' :: rest) = some ('{' :: p) := by
    rw [findJsonMatch_append pre _ hcond]
    simp [findJsonMatch, hfa, bareAt, hp]
  refine ⟨hfm, ?_, dropAfterLastClose_split rest p hp⟩
  have hne : pre ++ '{' :: rest ≠ [] := by cases pre <;> simp
  unfold extractJsonFromResponse
  rw [show (String.mk (pre ++ '{' :: rest)).data = pre ++ '{' :: rest from rfl]
  rw [if_neg (by simp [List.isEmpty_iff, hne]), hfm]

/-- Witness for C10 at a concrete fence free input. -/
theorem c10_witness :
    findJsonMatch ("ab ".data ++ '{' :: "\"x\":1\x7d cd".data)
      = some ('{' :: "\"x\":1\x7d".data) :=
  (c10_bare_greedy_first_to_last "ab ".data "\"x\":1\x7d cd".data "\"x\":1\x7d".data
    (by decide) rfl (by decide)).1

/-- Claim C1: each of the three public operations of each service
variant always returns an object shaped structured result (the
embedding is total, mirroring the catch-all in the source), and whenever
one of the three failure causes happened — service never set up, remote
call raised, or normalizer returned null — the result carries
analysisMetadata.status equal to the string error. -/
theorem c1_total_and_error_status (env : ServiceEnv) (imageFile foodName : String)
    (ingredients healthConditions : List String)
    (dietaryPreferences : List (String × String)) :
    ((GoogleGenAIService.analyzeFoodImage env imageFile healthConditions).isObj = true
     ∧ (GoogleGenAIService.analyzeFoodByName env foodName healthConditions).isObj = true
     ∧ (GoogleGenAIService.generateHealthyRecipe env ingredients healthConditions
          dietaryPreferences).isObj = true
     ∧ (VertexAIGenAIService.analyzeFoodImage env imageFile healthConditions).isObj = true
     ∧ (VertexAIGenAIService.analyzeFoodByName env foodName healthConditions).isObj = true
     ∧ (VertexAIGenAIService.generateHealthyRecipe env ingredients healthConditions
          dietaryPreferences).isObj = true)
    ∧ (failureOccurred env →
       analysisStatus (GoogleGenAIService.analyzeFoodImage env imageFile healthConditions)
         = some (Json.str "error")
       ∧ analysisStatus (GoogleGenAIService.analyzeFoodByName env foodName healthConditions)
         = some (Json.str "error")
       ∧ analysisStatus (GoogleGenAIService.generateHealthyRecipe env ingredients
           healthConditions dietaryPreferences) = some (Json.str "error")
       ∧ analysisStatus (VertexAIGenAIService.analyzeFoodImage env imageFile healthConditions)
         = some (Json.str "error")
       ∧ analysisStatus (VertexAIGenAIService.analyzeFoodByName env foodName healthConditions)
         = some (Json.str "error")
       ∧ analysisStatus (VertexAIGenAIService.generateHealthyRecipe env ingredients
           healthConditions dietaryPreferences) = some (Json.str "error")) := by
  obtain ⟨gm, remote, now⟩ := env
  cases gm with
  | false => exact ⟨⟨rfl, rfl, rfl, rfl, rfl, rfl⟩, fun _ => ⟨rfl, rfl, rfl, rfl, rfl, rfl⟩⟩
  | true =>
    cases remote with
    | error e => exact ⟨⟨rfl, rfl, rfl, rfl, rfl, rfl⟩, fun _ => ⟨rfl, rfl, rfl, rfl, rfl, rfl⟩⟩
    | ok t =>
      cases hx : extractJsonFromResponse t with
      | none =>
        refine ⟨⟨?_, ?_, ?_, ?_, ?_, ?_⟩, fun _ => ⟨?_, ?_, ?_, ?_, ?_, ?_⟩⟩ <;>
          simp only [G_image_ok, G_byName_ok, G_recipe_ok, V_image_ok, V_byName_ok,
            V_recipe_ok, hx] <;> rfl
      | some p =>
        have hobj : p.isObj = true := extract_some_isObj t p hx
        have hcontra : ¬ failureOccurred ⟨true, Except.ok t, now⟩ := by
          intro hf
          unfold failureOccurred at hf
          rcases hf with h1 | ⟨e, h2⟩ | ⟨t', h3, h4⟩
          · exact absurd h1 (by simp)
          · exact Except.noConfusion h2
          · injection h3 with h5
            rw [← h5] at h4
            rw [h4] at hx
            exact Option.noConfusion hx
        cases hj : jsTruthy p with
        | false =>
          refine ⟨⟨?_, ?_, ?_, ?_, ?_, ?_⟩, fun hf => absurd hf hcontra⟩ <;>
            simp only [G_image_ok, G_byName_ok, G_recipe_ok, V_image_ok, V_byName_ok,
              V_recipe_ok, hx, hj] <;> rfl
        | true =>
          refine ⟨⟨?_, ?_, ?_, ?_, ?_, ?_⟩, fun hf => absurd hf hcontra⟩ <;>
            simp only [G_image_ok, G_byName_ok, G_recipe_ok, V_image_ok, V_byName_ok,
              V_recipe_ok, hx, hj, if_true]
          · exact setField_isObj p _ _ hobj
          · exact hobj
          · exact hobj
          · exact hobj
          · exact hobj
          · exact hobj

/-- Witness for C1: the not set up failure cause at concrete inputs. -/
theorem c1_witness :
    analysisStatus (GoogleGenAIService.analyzeFoodByName
        ⟨false, Except.ok "", "TS"⟩ "banana" ["diabetes"]) = some (Json.str "error")
    ∧ (VertexAIGenAIService.generateHealthyRecipe
        ⟨false, Except.ok "", "TS"⟩ ["rice"] [] []).isObj = true :=
  ⟨((c1_total_and_error_status ⟨false, Except.ok "", "TS"⟩ "img" "banana" ["rice"]
      ["diabetes"] []).2 (Or.inl rfl)).2.1,
   (c1_total_and_error_status ⟨false, Except.ok "", "TS"⟩ "img" "banana" ["rice"]
      ["diabetes"] []).1.2.2.2.2.2⟩

/-- Claim C2 counterexample: on the success path of analyzeFoodByName
the extracted object is returned unmodified, so with the response text
of the specification example the result carries no analysisMetadata
field at all, refuting the every-code-path claim. -/
theorem c2_counterexample_success_lacks_metadata :
    GoogleGenAIService.analyzeFoodByName
        ⟨true, Except.ok "\x7b\"foodName\":\"banana\",\"calories\":\"105\"\x7d", "TS"⟩
        "banana" []
      = Json.obj [("foodName", Json.str "banana"), ("calories", Json.str "105")]
    ∧ getField (GoogleGenAIService.analyzeFoodByName
        ⟨true, Except.ok "\x7b\"foodName\":\"banana\",\"calories\":\"105\"\x7d", "TS"⟩
        "banana" []) "analysisMetadata" = none
    ∧ ¬ hasCoreMetadata (GoogleGenAIService.analyzeFoodByName
        ⟨true, Except.ok "\x7b\"foodName\":\"banana\",\"calories\":\"105\"\x7d", "TS"⟩
        "banana" []) := by
  refine ⟨rfl, rfl, fun hmeta => ?_⟩
  unfold hasCoreMetadata at hmeta
  obtain ⟨m, hm, _⟩ := hmeta
  rw [show getField (GoogleGenAIService.analyzeFoodByName
        ⟨true, Except.ok "\x7b\"foodName\":\"banana\",\"calories\":\"105\"\x7d", "TS"⟩
        "banana" []) "analysisMetadata" = none from rfl] at hm
  exact Option.noConfusion hm

/-- Claim C2 amended: the three core metadata keys are present on every
failure path of the main service; on success paths analyzeFoodByName and
generateHealthyRecipe return the extracted object unmodified (which need
not contain analysisMetadata), analyzeFoodImage attaches analysisMetadata
holding exactly timestamp and model (no status key), and the file auth
variant records only status and errorMessage in its fallback metadata. -/
theorem c2_amended_metadata_by_path :
    (∀ (env : ServiceEnv) (imageFile foodName : String)
       (ingredients healthConditions : List String)
       (dietaryPreferences : List (String × String)),
       failureOccurred env →
         hasCoreMetadata (GoogleGenAIService.analyzeFoodImage env imageFile healthConditions)
         ∧ hasCoreMetadata (GoogleGenAIService.analyzeFoodByName env foodName healthConditions)
         ∧ hasCoreMetadata (GoogleGenAIService.generateHealthyRecipe env ingredients
             healthConditions dietaryPreferences))
    ∧ (∀ (now t imageFile foodName : String) (ingredients healthConditions : List String)
         (dietaryPreferences : List (String × String)) (p : Json),
       extractJsonFromResponse t = some p → jsTruthy p = true →
         GoogleGenAIService.analyzeFoodByName ⟨true, Except.ok t, now⟩ foodName
             healthConditions = p
         ∧ GoogleGenAIService.generateHealthyRecipe ⟨true, Except.ok t, now⟩ ingredients
             healthConditions dietaryPreferences = p
         ∧ GoogleGenAIService.analyzeFoodImage ⟨true, Except.ok t, now⟩ imageFile
             healthConditions
             = setField p "analysisMetadata"
                 (Json.obj [("timestamp", Json.str now),
                            ("model", Json.str "gemini-2.0-flash-001")])
         ∧ analysisStatus (GoogleGenAIService.analyzeFoodImage ⟨true, Except.ok t, now⟩
             imageFile healthConditions) = none)
    ∧ (∀ msg : Option String,
        getField (VertexAIGenAIService.createErrorFallbackResponse msg) "analysisMetadata"
          = some (Json.obj [("status", Json.str "error"),
                            ("errorMessage", Json.str (msg.getD "Unknown error"))])
        ∧ metaField (VertexAIGenAIService.createErrorFallbackResponse msg) "timestamp"
          = none) := by
  refine ⟨?_, ?_, fun msg => ⟨rfl, rfl⟩⟩
  · intro env imageFile foodName ingredients hc dp hf
    obtain ⟨gm, remote, now⟩ := env
    cases gm with
    | false =>
      exact ⟨⟨_, rfl, rfl, rfl, rfl⟩, ⟨_, rfl, rfl, rfl, rfl⟩, ⟨_, rfl, rfl, rfl, rfl⟩⟩
    | true =>
      cases remote with
      | error e =>
        exact ⟨⟨_, rfl, rfl, rfl, rfl⟩, ⟨_, rfl, rfl, rfl, rfl⟩, ⟨_, rfl, rfl, rfl, rfl⟩⟩
      | ok t =>
        cases hx : extractJsonFromResponse t with
        | none =>
          refine ⟨?_, ?_, ?_⟩ <;>
            simp only [G_image_ok, G_byName_ok, G_recipe_ok, hx] <;>
            exact ⟨_, rfl, rfl, rfl, rfl⟩
        | some p =>
          exfalso
          unfold failureOccurred at hf
          rcases hf with h1 | ⟨e, h2⟩ | ⟨t', h3, h4⟩
          · exact absurd h1 (by simp)
          · exact Except.noConfusion h2
          · injection h3 with h5
            rw [← h5] at h4
            rw [h4] at hx
            exact Option.noConfusion hx
  · intro now t imageFile foodName ingredients hc dp p hx hj
    have hobj : p.isObj = true := extract_some_isObj t p hx
    refine ⟨?_, ?_, ?_, ?_⟩
    · simp only [G_byName_ok, hx, hj, if_true]
    · simp only [G_recipe_ok, hx, hj, if_true]
    · simp only [G_image_ok, hx, hj, if_true]
    · unfold analysisStatus metaField
      simp only [G_image_ok, hx, hj, if_true]
      rw [getField_setField_obj p _ _ hobj]
      rfl

/-- Witness for the amended C2 on a concrete success path. -/
theorem c2_amended_witness :
    GoogleGenAIService.analyzeFoodByName ⟨true, Except.ok "\x7b\"a\":1\x7d", "TS"⟩ "f" []
      = Json.obj [("a", Json.num "1")] :=
  (c2_amended_metadata_by_path.2.1 "TS" "\x7b\"a\":1\x7d" "i" "f" [] [] []
      (Json.obj [("a", Json.num "1")]) rfl rfl).1

/-- Claim C8 counterexample: on the remote failure path of
analyzeFoodByName the supplied health conditions are not passed to the
fallback builder — the recorded list is empty although the caller
supplied one condition. -/
theorem c8_counterexample_conditions_not_recorded :
    metaField (GoogleGenAIService.analyzeFoodByName
        ⟨true, Except.error "boom", "TS"⟩ "x" ["diabetes"]) "healthConditionsConsidered"
      = some (Json.arr [])
    ∧ ¬ (metaField (GoogleGenAIService.analyzeFoodByName
          ⟨true, Except.error "boom", "TS"⟩ "x" ["diabetes"]) "healthConditionsConsidered"
        = some (Json.arr (["diabetes"].map Json.str))) := by
  refine ⟨rfl, fun h => ?_⟩
  rw [show metaField (GoogleGenAIService.analyzeFoodByName
        ⟨true, Except.error "boom", "TS"⟩ "x" ["diabetes"]) "healthConditionsConsidered"
      = some (Json.arr []) from rfl] at h
  injection h with h1
  injection h1 with h2
  exact List.noConfusion h2

/-- Claim C8 amended: the main service fallback builder does produce the
fixed shape record (foodName Analysis Failed, status error, the error
message, the timestamp) and records the health conditions passed to it —
but the operations pass the supplied conditions only on the caught
remote failure path of analyzeFoodImage; every other failure path passes
the empty list, and the file auth variant records neither timestamp nor
health conditions. -/
theorem c8_amended_fallback_fields :
    (∀ (now : String) (msg : Option String) (hc : List String),
       getField (GoogleGenAIService.createErrorFallbackResponse now msg hc) "foodName"
         = some (Json.str "Analysis Failed")
       ∧ metaField (GoogleGenAIService.createErrorFallbackResponse now msg hc) "status"
         = some (Json.str "error")
       ∧ metaField (GoogleGenAIService.createErrorFallbackResponse now msg hc) "errorMessage"
         = some (Json.str (msg.getD "Unknown error"))
       ∧ metaField (GoogleGenAIService.createErrorFallbackResponse now msg hc) "timestamp"
         = some (Json.str now)
       ∧ metaField (GoogleGenAIService.createErrorFallbackResponse now msg hc)
           "healthConditionsConsidered" = some (Json.arr (hc.map Json.str)))
    ∧ (∀ (rem : Except String String) (now imageFile foodName e : String)
         (ingredients hc : List String) (dp : List (String × String)),
       GoogleGenAIService.analyzeFoodImage ⟨true, Except.error e, now⟩ imageFile hc
         = GoogleGenAIService.createErrorFallbackResponse now (some e) hc
       ∧ GoogleGenAIService.analyzeFoodByName ⟨true, Except.error e, now⟩ foodName hc
         = GoogleGenAIService.createErrorFallbackResponse now (some e) []
       ∧ GoogleGenAIService.generateHealthyRecipe ⟨true, Except.error e, now⟩ ingredients hc dp
         = GoogleGenAIService.createErrorFallbackResponse now (some e) []
       ∧ GoogleGenAIService.analyzeFoodByName ⟨false, rem, now⟩ foodName hc
         = GoogleGenAIService.createErrorFallbackResponse now
             (some "Google GenAI service not initialized") [])
    ∧ (∀ msg : Option String,
        getField (VertexAIGenAIService.createErrorFallbackResponse msg) "foodName"
          = some (Json.str "Analysis Failed")
        ∧ metaField (VertexAIGenAIService.createErrorFallbackResponse msg) "timestamp" = none
        ∧ metaField (VertexAIGenAIService.createErrorFallbackResponse msg)
            "healthConditionsConsidered" = none) :=
  ⟨fun now msg hc => ⟨rfl, rfl, rfl, rfl, rfl⟩,
   fun rem now imageFile foodName e ingredients hc dp => ⟨rfl, rfl, rfl, rfl⟩,
   fun msg => ⟨rfl, rfl, rfl⟩⟩

theorem resolver_b64_skip (decode : String → String) (b64 raw file : Option String)
    (h : tryB64Source decode ⟨b64, raw, file⟩ = none) :
    getVertexServiceAccount decode ⟨b64, raw, file⟩
      = getVertexServiceAccount decode ⟨none, raw, file⟩ := by
  unfold getVertexServiceAccount
  rw [h]
  rfl

theorem resolver_raw_skip (decode : String → String) (b64 raw file : Option String)
    (h : tryRawEnvSource ⟨b64, raw, file⟩ = none) :
    getVertexServiceAccount decode ⟨b64, raw, file⟩
      = getVertexServiceAccount decode ⟨b64, none, file⟩ := by
  unfold getVertexServiceAccount
  have htransfer : ∀ j, tryB64Source decode ⟨b64, raw, file⟩ = j →
      tryB64Source decode ⟨b64, none, file⟩ = j := fun _ hj => hj
  cases hb : tryB64Source decode ⟨b64, raw, file⟩ with
  | some j =>
    rw [htransfer (some j) hb]
  | none =>
    rw [htransfer none hb, h]
    rfl

/-- Claim C3: a source that is absent or fails to yield a usable
credential is skipped in favor of the next one in the fixed priority
order (base64, then raw, then file), without raising, and the not found
error is thrown exactly when all three sources fail. -/
theorem c3_resolution_fallthrough_and_notfound (decode : String → String) (env : CredEnv) :
    (tryB64Source decode env = none →
       getVertexServiceAccount decode env
         = getVertexServiceAccount decode ⟨none, env.rawKey, env.fileJson⟩)
    ∧ (tryRawEnvSource env = none →
       getVertexServiceAccount decode env
         = getVertexServiceAccount decode ⟨env.b64Key, none, env.fileJson⟩)
    ∧ (getVertexServiceAccount decode env = Except.error credentialsNotFoundMessage ↔
       tryB64Source decode env = none ∧ tryRawEnvSource env = none
         ∧ tryFileSource env = none) := by
  obtain ⟨b64, raw, file⟩ := env
  refine ⟨resolver_b64_skip decode b64 raw file, resolver_raw_skip decode b64 raw file, ?_⟩
  cases hb : tryB64Source decode ⟨b64, raw, file⟩ <;>
    cases hr : tryRawEnvSource ⟨b64, raw, file⟩ <;>
      cases hf : tryFileSource ⟨b64, raw, file⟩ <;>
        simp [getVertexServiceAccount, hb, hr, hf, credentialsNotFoundMessage]

/-- Witness for C3: two malformed sources and a missing file end in the
not found error; a failing base64 source alone is simply skipped. -/
theorem c3_witness :
    getVertexServiceAccount id ⟨some "notjson", some "alsonotjson", none⟩
      = Except.error credentialsNotFoundMessage
    ∧ getVertexServiceAccount id ⟨some "notjson", some "\x7b\"a\":1\x7d", none⟩
      = getVertexServiceAccount id ⟨none, some "\x7b\"a\":1\x7d", none⟩ :=
  ⟨(c3_resolution_fallthrough_and_notfound id
      ⟨some "notjson", some "alsonotjson", none⟩).2.2.mpr ⟨rfl, rfl, rfl⟩,
   (c3_resolution_fallthrough_and_notfound id
      ⟨some "notjson", some "\x7b\"a\":1\x7d", none⟩).1 rfl⟩

/-- Claim C6 counterexample: for a raw environment key holding an actual
newline inside a string, the single strategy of the resolver fails and
the source is abandoned, although the second strategy the claim
describes (escape actual newlines, then parse) would succeed — so the
resolver does not try both strategies before giving up. -/
theorem c6_counterexample_no_second_strategy :
    parseServiceAccountKey "\x7b\"a\":\"x\ny\"\x7d" = none
    ∧ specRawEnvTwoStrategyParse "\x7b\"a\":\"x\ny\"\x7d"
        = some (Json.obj [("a", Json.str "x\ny")])
    ∧ tryRawEnvSource ⟨none, some "\x7b\"a\":\"x\ny\"\x7d", none⟩ = none
    ∧ getVertexServiceAccount id ⟨none, some "\x7b\"a\":\"x\ny\"\x7d", none⟩
        = Except.error credentialsNotFoundMessage := ⟨rfl, rfl, rfl, rfl⟩

/-- Claim C6 amended: the resolver raw environment source attempts only
one parse strategy — JSON parse after rewriting escaped newline
sequences to newlines — and is given up when that fails; the two
strategy behavior exists only in the test setup script, in the opposite
arrangement: parse with actual newlines escaped first, then parse the
unmodified string, and only when both fail does the script give up. -/
theorem c6_amended_single_strategy :
    (∀ (decode : String → String) (key : String) (b64 file : Option String),
       parseServiceAccountKey key = none →
       getVertexServiceAccount decode ⟨b64, some key, file⟩
         = getVertexServiceAccount decode ⟨b64, none, file⟩)
    ∧ (∀ key : String, setupCredentialsParse key = none ↔
        (Json.parseChars (escapeRawNewlines key.data) = none
         ∧ Json.parseChars key.data = none))
    ∧ (∀ (key : String) (j : Json),
       Json.parseChars (escapeRawNewlines key.data) = some j →
         setupCredentialsParse key = some j) := by
  refine ⟨fun decode key b64 file h => ?_, fun key => ?_, fun key j h => ?_⟩
  · refine resolver_raw_skip decode b64 (some key) file ?_
    unfold tryRawEnvSource
    dsimp only
    by_cases hk : key.data.isEmpty
    · rw [if_pos hk]
    · rw [if_neg hk, h]
  · unfold setupCredentialsParse
    cases he : Json.parseChars (escapeRawNewlines key.data) <;> simp [he]
  · unfold setupCredentialsParse
    rw [h]

/-- Witness for the amended C6 at concrete inputs. -/
theorem c6_amended_witness :
    getVertexServiceAccount id ⟨none, some "\x7b\"a\":\"x\ny\"\x7d", some "\x7b\x7d"⟩
      = getVertexServiceAccount id ⟨none, none, some "\x7b\x7d"⟩
    ∧ setupCredentialsParse "\x7b\"a\":2\x7d" = some (Json.obj [("a", Json.num "2")]) :=
  ⟨c6_amended_single_strategy.1 id "\x7b\"a\":\"x\ny\"\x7d" none (some "\x7b\x7d") rfl,
   c6_amended_single_strategy.2.2 "\x7b\"a\":2\x7d" (Json.obj [("a", Json.num "2")]) rfl⟩

/-- Claim C7, evaluated at the failing input: the raw environment value
is a well formed credential JSON — its direct JSON.parse yields a
private key with a real line break — yet parseServiceAccountKey rewrites
the escape into a raw newline, making the string unparseable, so with
that source alone present the resolver throws not found instead of
returning the credential. -/
theorem c7_code_bug_escaped_key_rejected :
    Json.parse "\x7b\"project_id\":\"p\",\"client_email\":\"e\",\"private_key\":\"A\\nB\"\x7d"
      = some (Json.obj [("project_id", Json.str "p"), ("client_email", Json.str "e"),
                        ("private_key", Json.str "A\nB")])
    ∧ parseServiceAccountKey
        "\x7b\"project_id\":\"p\",\"client_email\":\"e\",\"private_key\":\"A\\nB\"\x7d" = none
    ∧ getVertexServiceAccount id
        ⟨none,
         some "\x7b\"project_id\":\"p\",\"client_email\":\"e\",\"private_key\":\"A\\nB\"\x7d",
         none⟩
      = Except.error credentialsNotFoundMessage := ⟨rfl, rfl, rfl⟩

/-- Claim C9: for non-empty input the raw environment parse is exactly
JSON.parse of the input with every backslash n pair replaced by a
newline throughout the whole string (null when that fails); hence a
credential JSON whose field value legitimately holds a literal
backslash n sequence parses directly but is rejected by the resolver
parse — a different result than plain JSON.parse. -/
theorem c9_global_replacement :
    (∀ key : String, key.data ≠ [] →
       parseServiceAccountKey key = Json.parseChars (replaceEscapedNewlines key.data))
    ∧ Json.parse "\x7b\"a\":\"x\\\\ny\"\x7d" = some (Json.obj [("a", Json.str "x\\ny")])
    ∧ parseServiceAccountKey "\x7b\"a\":\"x\\\\ny\"\x7d" = none := by
  refine ⟨fun key h => ?_, rfl, rfl⟩
  unfold parseServiceAccountKey
  rw [if_neg (by simpa [List.isEmpty_iff] using h)]

/-- Witness for C9 at a concrete non-empty key. -/
theorem c9_witness :
    parseServiceAccountKey "\x7b\x7d"
      = Json.parseChars (replaceEscapedNewlines "\x7b\x7d".data) :=
  c9_global_replacement.1 "\x7b\x7d" (by decide)
